import Mathlib

/-!
Shallow embedding of the immediate-mode TUI prototype (src/src/main.rs).

Conventions of the embedding:
* Rust `i32` values are modelled as `Int`.  `key as u8` (truncation to the
  low 8 bits) is modelled as `Int.emod key 256`, which agrees with the
  two's-complement bit truncation for every `Int`.
  `i32::rem_euclid` with a positive divisor is `Int.emod`; with divisor 0 it
  panics, which the model expresses by returning `none`.
* A call that can `panic!` / `unwrap()` on `None` is modelled as returning
  `Option`; `none` means the Rust code panics.
* The `Vec<Layout>` stack is a `List Layout` whose HEAD is the top of the
  stack (Rust pushes/pops/inspects the last element of the vector).
* ncurses calls (`mv`, `addstr`, `attron`, `attroff`) only draw to the
  screen; they read `free_pos()` and the style pair but do not change the
  core state, so the embedding keeps the state transitions and the sizes
  reported to the layout stack, and omits the drawing itself.
* Rust `&mut` out-parameters (the checkbox `state: &mut bool`, the edit
  field `buffer: &mut String`) become explicit inputs and outputs.
  The unused `_cursor: &mut usize` parameter of `edit_field` is omitted.
-/

namespace Imtui

/-- `struct Point(i32, i32)` -/
structure Point where
  x : Int
  y : Int
deriving DecidableEq, Repr

/-- `impl Add for Point` (component-wise). -/
def Point.add (p q : Point) : Point := ⟨p.x + q.x, p.y + q.y⟩

/-- `impl Mul for Point` (component-wise). -/
def Point.mul (p q : Point) : Point := ⟨p.x * q.x, p.y * q.y⟩

/-- `enum LayoutType { Horz, Vert }` -/
inductive LayoutType where
  | Horz
  | Vert
deriving DecidableEq, Repr

/-- `struct Layout { typ, pos, size, pad }` -/
structure Layout where
  typ : LayoutType
  pos : Point
  size : Point
  pad : Int
deriving DecidableEq, Repr

/-- `Layout::new` -/
def Layout.new (typ : LayoutType) (pos : Point) (pad : Int) : Layout :=
  { typ := typ, pos := pos, size := ⟨0, 0⟩, pad := pad }

/-- `Layout::free_pos` -/
def Layout.free_pos (l : Layout) : Point :=
  match l.typ with
  | .Horz => l.pos.add (l.size.mul ⟨1, 0⟩)
  | .Vert => l.pos.add (l.size.mul ⟨0, 1⟩)

/-- `Layout::add_size` -/
def Layout.add_size (l : Layout) (size : Point) : Layout :=
  match l.typ with
  | .Horz => { l with size := ⟨l.size.x + size.x + l.pad, max l.size.y size.y⟩ }
  | .Vert => { l with size := ⟨max l.size.x size.x, l.size.y + size.y + l.pad⟩ }

/-- `struct Id(i32)` (widget identifier). -/
structure Id where
  val : Int
deriving DecidableEq, Repr

/-- `struct ImTui` — the interaction state.  The `layouts` list keeps the
stack top at the head. -/
structure ImTui where
  active : Option Id
  hot : Option Id
  layouts : List Layout
  key : Option Int
  ids : List Id
  focus : Int
deriving DecidableEq, Repr

/-- `ImTui::default()` (all fields `Default`). -/
def ImTui.default : ImTui :=
  { active := none, hot := none, layouts := [], key := none, ids := [], focus := 0 }

/-- The focus-navigation step at the top of `ImTui::begin`:
```text
if self.active.is_none() {
    if let Some(key) = self.key {
        match key as u8 as char {
            's' => self.focus = (self.focus + 1).rem_euclid(self.ids.len() as i32),
            'w' => self.focus = (self.focus - 1).rem_euclid(self.ids.len() as i32),
            _ => {},
        }
    }
}
```
`'s' = 115`, `'w' = 119`.  `rem_euclid` with divisor `0` (no ids rendered in
the previous frame) panics, modelled as `none`. -/
def ImTui.navStep (s : ImTui) : Option ImTui :=
  if s.active.isNone then
    match s.key with
    | some key =>
      if key.emod 256 = 115 then
        if s.ids.length = 0 then none
        else some { s with focus := (s.focus + 1).emod (s.ids.length : Int) }
      else if key.emod 256 = 119 then
        if s.ids.length = 0 then none
        else some { s with focus := (s.focus - 1).emod (s.ids.length : Int) }
      else some s
    | none => some s
  else some s

/-- `ImTui::begin`: focus navigation, recomputation of `hot` from the
previous frame's rendered ids (`self.focus.clamp(0, len-1)` is
`min (max focus 0) (len - 1)`), push of the vertical root layout, and
clearing of the id registry. -/
def ImTui.begin (s : ImTui) (pos : Point) : Option ImTui := do
  let s ← s.navStep
  let hot :=
    if s.ids.length > 0 then
      s.ids[(min (max s.focus 0) ((s.ids.length : Int) - 1)).toNat]?
    else none
  some { s with hot := hot,
                layouts := Layout.new .Vert pos 0 :: s.layouts,
                ids := ([] : List Id) }

/-- `ImTui::begin_layout`: reads `free_pos()` of the current top
(`unwrap` panics on an empty stack) and pushes a fresh layout there. -/
def ImTui.begin_layout (s : ImTui) (typ : LayoutType) (pad : Int) : Option ImTui :=
  match s.layouts with
  | top :: rest =>
      some { s with layouts := Layout.new typ top.free_pos pad :: top :: rest }
  | [] => none

/-- `ImTui::end_layout`: pops the top layout and folds its size into the
new top via `add_size`; both `unwrap`s panic unless the stack holds at
least two layouts. -/
def ImTui.end_layout (s : ImTui) : Option ImTui :=
  match s.layouts with
  | layout :: parent :: rest =>
      some { s with layouts := parent.add_size layout.size :: rest }
  | _ => none

/-- `ImTui::end` (`end` is reserved in Lean): pops the root layout
(`unwrap` panics on an empty stack) and clears the pending key. -/
def ImTui.end' (s : ImTui) : Option ImTui :=
  match s.layouts with
  | _ :: rest => some { s with layouts := rest, key := none }
  | [] => none

/-- `ImTui::feed_key` -/
def ImTui.feed_key (s : ImTui) (key : Int) : ImTui :=
  { s with key := some key }

/-- `fn label`: pure rendering; contributes `(text.len(), 1)` to the top
layout (`unwrap` panics on an empty stack). -/
def label (imtui : ImTui) (text : String) : Option ImTui :=
  match imtui.layouts with
  | top :: rest =>
      some { imtui with layouts := top.add_size ⟨(text.length : Int), 1⟩ :: rest }
  | [] => none

/-- `fn checkbox`: returns `(clicked, new caller state, new ImTui)`.
Rendered text is `"[{X| }] {text}"`. -/
def checkbox (imtui : ImTui) (text : String) (state : Bool) (my_id : Id) :
    Option (Bool × Bool × ImTui) :=
  let (clicked, imtui) :=
    if imtui.active = some my_id then
      (true, { imtui with active := none })
    else if imtui.hot = some my_id then
      (false,
        if imtui.active.isNone then
          if imtui.key = some 10 then { imtui with active := some my_id }
          else imtui
        else imtui)
    else (false, imtui)
  let state := if clicked then !state else state
  let imtui := { imtui with ids := imtui.ids ++ [my_id] }
  match imtui.layouts with
  | top :: rest =>
      let s := "[" ++ (if state then "X" else " ") ++ "] " ++ text
      some (clicked, state,
            { imtui with layouts := top.add_size ⟨(s.length : Int), 1⟩ :: rest })
  | [] => none

/-- `fn button`: returns `(clicked, new ImTui)`.  Rendered text is
`"[ {label} ]"`. -/
def button (imtui : ImTui) (lbl : String) (id : Id) : Option (Bool × ImTui) :=
  let (clicked, imtui) :=
    if imtui.active = some id then
      (true, { imtui with active := none })
    else if imtui.hot = some id then
      (false,
        if imtui.active.isNone then
          if imtui.key = some 10 then { imtui with active := some id }
          else imtui
        else imtui)
    else (false, imtui)
  let imtui := { imtui with ids := imtui.ids ++ [id] }
  match imtui.layouts with
  | top :: rest =>
      let text := "[ " ++ lbl ++ " ]"
      some (clicked, { imtui with layouts := top.add_size ⟨(text.length : Int), 1⟩ :: rest })
  | [] => none

/-- `const EDIT_FIELD_SIZE: Point = Point(20, 1);` -/
def EDIT_FIELD_SIZE : Point := ⟨20, 1⟩

/-- `fn edit_field`: returns `(new buffer, new ImTui)`.  While active,
`27 | 10` ends the session, `32..=127` appends the key as a character;
while hot, Enter grants activation. -/
def edit_field (imtui : ImTui) (buffer : String) (id : Id) :
    Option (String × ImTui) :=
  let (imtui, buffer) :=
    if imtui.active = some id then
      match imtui.key with
      | some key =>
          if key = 27 ∨ key = 10 then ({ imtui with active := none }, buffer)
          else if 32 ≤ key ∧ key ≤ 127 then
            (imtui, buffer.push (Char.ofNat key.toNat))
          else (imtui, buffer)
      | none => (imtui, buffer)
    else if imtui.hot = some id then
      (if imtui.active.isNone then
         if imtui.key = some 10 then { imtui with active := some id }
         else imtui
       else imtui,
       buffer)
    else (imtui, buffer)
  let imtui := { imtui with ids := imtui.ids ++ [id] }
  match imtui.layouts with
  | top :: rest =>
      some (buffer, { imtui with layouts := top.add_size EDIT_FIELD_SIZE :: rest })
  | [] => none

/-! ### Frame drivers for the scripted scenarios

These mirror the demo's per-frame loop: feed the pending key, `begin`,
declare the widgets, `end`. -/

/-- One frame of the lone-button scenario: optionally feed a key, `begin`,
declare the button, `end`.  Returns the button's `clicked` report. -/
def buttonFrame (lbl : String) (id : Id) (k : Option Int) (s : ImTui) :
    Option (Bool × ImTui) := do
  let s := match k with
           | some key => s.feed_key key
           | none => s
  let s ← s.begin ⟨0, 0⟩
  let (c, s) ← button s lbl id
  let s ← s.end'
  some (c, s)

/-- Run the lone-button scenario over a key script, collecting each frame's
`clicked` report. -/
def runButtonFrames (lbl : String) (id : Id) (s : ImTui) :
    List (Option Int) → Option (List Bool × ImTui)
  | [] => some ([], s)
  | k :: ks => do
      let (c, s) ← buttonFrame lbl id k s
      let (cs, s) ← runButtonFrames lbl id s ks
      some (c :: cs, s)

/-- One frame of the lone-edit-field scenario. -/
def editFrame (id : Id) (k : Int) (s : ImTui) (buf : String) :
    Option (String × ImTui) := do
  let s := s.feed_key k
  let s ← s.begin ⟨0, 0⟩
  let (buf, s) ← edit_field s buf id
  let s ← s.end'
  some (buf, s)

/-- Run the lone-edit-field scenario over a key script. -/
def runEditFrames (id : Id) : ImTui → String → List Int → Option (String × ImTui)
  | s, buf, [] => some (buf, s)
  | s, buf, k :: ks => do
      let (buf, s) ← editFrame id k s buf
      runEditFrames id s buf ks

/-- A `begin_layout`/`end_layout` call, for reasoning about nesting. -/
inductive LOp where
  | bl (typ : LayoutType) (pad : Int)
  | el
deriving DecidableEq, Repr

/-- Interpret one layout call. -/
def runOp (s : ImTui) : LOp → Option ImTui
  | .bl typ pad => s.begin_layout typ pad
  | .el => s.end_layout

/-- Interpret a sequence of layout calls. -/
def runOps (s : ImTui) (ops : List LOp) : Option ImTui :=
  ops.foldlM runOp s

/-- Properly nested, fully closed `begin_layout`/`end_layout` sequences:
the Dyck language over `bl`/`el`. -/
inductive Balanced : List LOp → Prop where
  | nil : Balanced []
  | wrap {ws : List LOp} (t : LayoutType) (p : Int) :
      Balanced ws → Balanced (LOp.bl t p :: (ws ++ [LOp.el]))
  | comp {a b : List LOp} : Balanced a → Balanced b → Balanced (a ++ b)

/-- A whole frame of layout calls: `begin`, the nested calls, `end`. -/
def layoutSession (s : ImTui) (pos : Point) (ops : List LOp) : Option ImTui := do
  let s ← s.begin pos
  let s ← runOps s ops
  s.end'

/-- Declare one button per id (discarding the `clicked` reports), as the
demo's frame body does. -/
def declButtons (l : List Id) (s : ImTui) : Option ImTui :=
  l.foldlM (fun s id => (button s "" id).map Prod.snd) s

/-- One frame of the focus-navigation scenario: feed key `k`, `begin`,
declare one button per id in `l`, `end`. -/
def navFrame (l : List Id) (k : Int) (s : ImTui) : Option ImTui := do
  let s := s.feed_key k
  let s ← s.begin ⟨0, 0⟩
  let s ← declButtons l s
  s.end'

/-- Run the focus-navigation scenario over a key script. -/
def runNavFrames (l : List Id) (s : ImTui) (keys : List Int) : Option ImTui :=
  keys.foldlM (fun s k => navFrame l k s) s

/-- The interaction state between frames of the navigation scenario:
no layouts, no pending key, nothing active, ids `l` rendered. -/
def navState (l : List Id) (h : Option Id) (f : Int) : ImTui :=
  { active := none, hot := h, layouts := [], key := none, ids := l, focus := f }

/-- Active-ownership discipline of one widget call on state `s` producing
`s'`: the call leaves `active` unchanged, releases its own claim, or
acquires the claim only when it was free (and the widget was hot). -/
def activeStep (s s' : ImTui) (id : Id) : Prop :=
  s'.active = s.active ∨
  (s.active = some id ∧ s'.active = none) ∨
  (s.active = none ∧ s.hot = some id ∧ s'.active = some id)

/-- Initial state of the lone-button scenario: button id 0 was rendered in
the previous frame and `hot` is pre-seeded to it. -/
def c1State : ImTui :=
  { active := none, hot := some ⟨0⟩, layouts := [], key := none,
    ids := [⟨0⟩], focus := 0 }

/-- Initial state of the lone-edit-field scenario: the field with id 1 is
already active. -/
def c4State : ImTui :=
  { active := some ⟨1⟩, hot := none, layouts := [], key := none,
    ids := [], focus := 0 }

/-! ### Helper lemmas -/

theorem navStep_key_none {s : ImTui} (h : s.key = none) : s.navStep = some s := by
  unfold ImTui.navStep
  rw [h]
  split <;> rfl

theorem navStep_active {s : ImTui} (a : Id) (h : s.active = some a) :
    s.navStep = some s := by
  unfold ImTui.navStep
  rw [h]
  rfl

theorem navStep_not_nav {s : ImTui} {k : Int} (hk : s.key = some k)
    (h1 : k.emod 256 ≠ 115) (h2 : k.emod 256 ≠ 119) : s.navStep = some s := by
  unfold ImTui.navStep
  rw [hk]
  split
  · simp [h1, h2]
  · rfl

theorem navStep_shape {s s₁ : ImTui} (h : s.navStep = some s₁) :
    s₁ = { s with focus := s₁.focus } := by
  unfold ImTui.navStep at h
  split at h
  · split at h
    · split_ifs at h <;> (injection h with h) <;> rw [← h]
    · injection h with h
      rw [← h]
  · injection h with h
    rw [← h]

theorem navStep_nav_s {s : ImTui} (hA : s.active = none) (hk : s.key = some 115)
    (hne : s.ids ≠ []) :
    s.navStep = some { s with focus := (s.focus + 1).emod (s.ids.length : Int) } := by
  unfold ImTui.navStep
  rw [hA, hk]
  simp only [Option.isNone_none, if_true]
  rw [if_pos (show (115 : Int).emod 256 = 115 by decide),
      if_neg (fun hc => hne (List.length_eq_zero.mp hc))]

theorem navStep_nav_w {s : ImTui} (hA : s.active = none) (hk : s.key = some 119)
    (hne : s.ids ≠ []) :
    s.navStep = some { s with focus := (s.focus - 1).emod (s.ids.length : Int) } := by
  unfold ImTui.navStep
  rw [hA, hk]
  simp only [Option.isNone_none, if_true]
  rw [if_neg (show ¬(119 : Int).emod 256 = 115 by decide),
      if_pos (show (119 : Int).emod 256 = 119 by decide),
      if_neg (fun hc => hne (List.length_eq_zero.mp hc))]

theorem begin_eq {s s₁ : ImTui} (pos : Point) (h : s.navStep = some s₁) :
    s.begin pos = some { s₁ with
      hot := if s₁.ids.length > 0 then
               s₁.ids[(min (max s₁.focus 0) ((s₁.ids.length : Int) - 1)).toNat]?
             else none,
      layouts := Layout.new .Vert pos 0 :: s₁.layouts,
      ids := ([] : List Id) } := by
  unfold ImTui.begin
  rw [h]
  rfl

theorem button_active {s : ImTui} {top : Layout} {rest : List Layout}
    (lbl : String) (id : Id) (hA : s.active = some id)
    (hL : s.layouts = top :: rest) :
    button s lbl id = some (true,
      { s with active := none, ids := s.ids ++ [id],
               layouts := top.add_size ⟨(("[ " ++ lbl ++ " ]").length : Int), 1⟩
                            :: rest }) := by
  simp [button, hA, hL]

theorem button_arm {s : ImTui} {top : Layout} {rest : List Layout}
    (lbl : String) (id : Id) (hA : s.active = none) (hH : s.hot = some id)
    (hK : s.key = some 10) (hL : s.layouts = top :: rest) :
    button s lbl id = some (false,
      { s with active := some id, ids := s.ids ++ [id],
               layouts := top.add_size ⟨(("[ " ++ lbl ++ " ]").length : Int), 1⟩
                            :: rest }) := by
  simp [button, hA, hH, hK, hL]

theorem button_quiet {s : ImTui} {top : Layout} {rest : List Layout}
    (lbl : String) (id : Id) (h1 : s.active ≠ some id)
    (h2 : ¬(s.hot = some id ∧ s.active = none ∧ s.key = some 10))
    (hL : s.layouts = top :: rest) :
    button s lbl id = some (false,
      { s with ids := s.ids ++ [id],
               layouts := top.add_size ⟨(("[ " ++ lbl ++ " ]").length : Int), 1⟩
                            :: rest }) := by
  by_cases hh : s.hot = some id
  · by_cases ha : s.active = none
    · have hk : s.key ≠ some 10 := fun hk => h2 ⟨hh, ha, hk⟩
      simp [button, h1, hh, ha, hk, hL]
    · simp [button, h1, hh, hL, Option.isNone_iff_eq_none, ha]
  · simp [button, h1, hh, hL]

theorem button_no_enter {s : ImTui} {top : Layout} {rest : List Layout}
    (lbl : String) (id : Id) (hA : s.active = none) (hK : s.key ≠ some 10)
    (hL : s.layouts = top :: rest) :
    button s lbl id = some (false,
      { s with ids := s.ids ++ [id],
               layouts := top.add_size ⟨(("[ " ++ lbl ++ " ]").length : Int), 1⟩
                            :: rest }) :=
  button_quiet lbl id (by simp [hA]) (fun hc => hK hc.2.2) hL

theorem checkbox_active {s : ImTui} {top : Layout} {rest : List Layout}
    (text : String) (state : Bool) (my_id : Id) (hA : s.active = some my_id)
    (hL : s.layouts = top :: rest) :
    checkbox s text state my_id = some (true, !state,
      { s with active := none, ids := s.ids ++ [my_id],
               layouts := top.add_size
                 ⟨((("[" ++ (if !state then "X" else " ") ++ "] " ++ text).length : Int)), 1⟩
                 :: rest }) := by
  simp [checkbox, hA, hL]

theorem checkbox_arm {s : ImTui} {top : Layout} {rest : List Layout}
    (text : String) (state : Bool) (my_id : Id) (hA : s.active = none)
    (hH : s.hot = some my_id) (hK : s.key = some 10) (hL : s.layouts = top :: rest) :
    checkbox s text state my_id = some (false, state,
      { s with active := some my_id, ids := s.ids ++ [my_id],
               layouts := top.add_size
                 ⟨((("[" ++ (if state then "X" else " ") ++ "] " ++ text).length : Int)), 1⟩
                 :: rest }) := by
  simp [checkbox, hA, hH, hK, hL]

theorem checkbox_quiet {s : ImTui} {top : Layout} {rest : List Layout}
    (text : String) (state : Bool) (my_id : Id) (h1 : s.active ≠ some my_id)
    (h2 : ¬(s.hot = some my_id ∧ s.active = none ∧ s.key = some 10))
    (hL : s.layouts = top :: rest) :
    checkbox s text state my_id = some (false, state,
      { s with ids := s.ids ++ [my_id],
               layouts := top.add_size
                 ⟨((("[" ++ (if state then "X" else " ") ++ "] " ++ text).length : Int)), 1⟩
                 :: rest }) := by
  by_cases hh : s.hot = some my_id
  · by_cases ha : s.active = none
    · have hk : s.key ≠ some 10 := fun hk => h2 ⟨hh, ha, hk⟩
      simp [checkbox, h1, hh, ha, hk, hL]
    · simp [checkbox, h1, hh, hL, Option.isNone_iff_eq_none, ha]
  · simp [checkbox, h1, hh, hL]

theorem ef_term {s : ImTui} {top : Layout} {rest : List Layout} {k : Int}
    (buf : String) (id : Id) (hA : s.active = some id) (hk : s.key = some k)
    (hterm : k = 27 ∨ k = 10) (hL : s.layouts = top :: rest) :
    edit_field s buf id = some (buf,
      { s with active := none, ids := s.ids ++ [id],
               layouts := top.add_size EDIT_FIELD_SIZE :: rest }) := by
  simp [edit_field, hA, hk, hterm, hL]

theorem ef_print {s : ImTui} {top : Layout} {rest : List Layout} {k : Int}
    (buf : String) (id : Id) (hA : s.active = some id) (hk : s.key = some k)
    (hnoterm : ¬(k = 27 ∨ k = 10)) (hr : 32 ≤ k ∧ k ≤ 127)
    (hL : s.layouts = top :: rest) :
    edit_field s buf id = some (buf.push (Char.ofNat k.toNat),
      { s with ids := s.ids ++ [id],
               layouts := top.add_size EDIT_FIELD_SIZE :: rest }) := by
  simp [edit_field, hA, hk, hnoterm, hr, hL]

theorem ef_active_other {s : ImTui} {top : Layout} {rest : List Layout} {k : Int}
    (buf : String) (id : Id) (hA : s.active = some id) (hk : s.key = some k)
    (hnoterm : ¬(k = 27 ∨ k = 10)) (hnr : ¬(32 ≤ k ∧ k ≤ 127))
    (hL : s.layouts = top :: rest) :
    edit_field s buf id = some (buf,
      { s with ids := s.ids ++ [id],
               layouts := top.add_size EDIT_FIELD_SIZE :: rest }) := by
  simp [edit_field, hA, hk, hnoterm, hnr, hL]

theorem ef_active_nokey {s : ImTui} {top : Layout} {rest : List Layout}
    (buf : String) (id : Id) (hA : s.active = some id) (hk : s.key = none)
    (hL : s.layouts = top :: rest) :
    edit_field s buf id = some (buf,
      { s with ids := s.ids ++ [id],
               layouts := top.add_size EDIT_FIELD_SIZE :: rest }) := by
  simp [edit_field, hA, hk, hL]

theorem ef_arm {s : ImTui} {top : Layout} {rest : List Layout}
    (buf : String) (id : Id) (hA : s.active = none) (hH : s.hot = some id)
    (hK : s.key = some 10) (hL : s.layouts = top :: rest) :
    edit_field s buf id = some (buf,
      { s with active := some id, ids := s.ids ++ [id],
               layouts := top.add_size EDIT_FIELD_SIZE :: rest }) := by
  simp [edit_field, hA, hH, hK, hL]

theorem ef_quiet {s : ImTui} {top : Layout} {rest : List Layout}
    (buf : String) (id : Id) (h1 : s.active ≠ some id)
    (h2 : ¬(s.hot = some id ∧ s.active = none ∧ s.key = some 10))
    (hL : s.layouts = top :: rest) :
    edit_field s buf id = some (buf,
      { s with ids := s.ids ++ [id],
               layouts := top.add_size EDIT_FIELD_SIZE :: rest }) := by
  by_cases hh : s.hot = some id
  · by_cases ha : s.active = none
    · have hk : s.key ≠ some 10 := fun hk => h2 ⟨hh, ha, hk⟩
      simp [edit_field, h1, hh, ha, hk, hL]
    · simp [edit_field, h1, hh, hL, Option.isNone_iff_eq_none, ha]
  · simp [edit_field, h1, hh, hL]

theorem button_nil {s : ImTui} (lbl : String) (id : Id) (hL : s.layouts = []) :
    button s lbl id = none := by
  unfold button
  split_ifs <;> simp [hL]

theorem checkbox_nil {s : ImTui} (text : String) (state : Bool) (my_id : Id)
    (hL : s.layouts = []) : checkbox s text state my_id = none := by
  unfold checkbox
  split_ifs <;> simp [hL]

theorem ef_nil {s : ImTui} (buf : String) (id : Id) (hL : s.layouts = []) :
    edit_field s buf id = none := by
  by_cases hA : s.active = some id
  · cases hk : s.key with
    | none => simp [edit_field, hA, hk, hL]
    | some k =>
        by_cases ht : k = 27 ∨ k = 10
        · simp [edit_field, hA, hk, ht, hL]
        · by_cases hr : 32 ≤ k ∧ k ≤ 127
          · simp [edit_field, hA, hk, ht, hr, hL]
          · simp [edit_field, hA, hk, ht, hr, hL]
  · by_cases hh : s.hot = some id
    · by_cases ha : s.active = none
      · by_cases hk : s.key = some 10
        · simp [edit_field, hA, hh, ha, hk, hL]
        · simp [edit_field, hA, hh, ha, hk, hL]
      · simp [edit_field, hA, hh, Option.isNone_iff_eq_none, ha, hL]
    · simp [edit_field, hA, hh, hL]

/-! ### Theorems about the claims -/

/-- C1 (counterexample): in the lone-button scenario (button id 0 the
only widget, `hot` pre-seeded to `Some(0)`, nothing active), the frame
whose pending key is Enter reports `clicked = false` and leaves
`active = Some(0)` standing at the end of that frame — not `clicked = true`
with `active` cleared within the frame, as the claim states. -/
theorem c1_counterexample :
    (runButtonFrames "ok" ⟨0⟩ c1State [none, some 10]).map
        (fun r => (r.1, r.2.active)) = some ([false, false], some ⟨0⟩) ∧
    ¬ (runButtonFrames "ok" ⟨0⟩ c1State [none, some 10]).map
        (fun r => (r.1, r.2.active)) = some ([false, true], none) := by
  exact ⟨rfl, by decide⟩

/-- C1 (amended): in the lone-button scenario fed `[no key], [Enter],
[no key]` over three frames, the button reports `clicked = false` on
frame 1, `clicked = false` on frame 2 — the Enter frame, which instead
sets `active = Some(0)` and leaves it set at the end of that frame — and
`clicked = true` on frame 3, the frame that clears `active` back to
`None`. -/
theorem c1_amended_three_frames :
    (runButtonFrames "ok" ⟨0⟩ c1State [none, some 10, none]).map
        (fun r => (r.1, r.2.active)) = some ([false, false, true], none) ∧
    (runButtonFrames "ok" ⟨0⟩ c1State [none, some 10]).map
        (fun r => r.2.active) = some (some ⟨0⟩) := by
  exact ⟨rfl, rfl⟩

/-- C2: a widget that is hot while nothing is active and the pending key
is Enter (10) arms itself — `active := Some(id)` — and reports no
activation (`false`); in any frame in which the widget call runs with
`active = Some(id)` it reports the activation (`true` for button and
checkbox) and clears `active`.  `edit_field` arms the same way but has no
activation report. -/
theorem c2_enter_arms_click_fires_next_frame :
    (∀ (s : ImTui) (top : Layout) (rest : List Layout) (lbl : String) (id : Id),
        s.hot = some id → s.active = none → s.key = some 10 →
        s.layouts = top :: rest →
        ∃ s', button s lbl id = some (false, s') ∧ s'.active = some id) ∧
    (∀ (s : ImTui) (top : Layout) (rest : List Layout) (lbl : String) (id : Id),
        s.active = some id → s.layouts = top :: rest →
        ∃ s', button s lbl id = some (true, s') ∧ s'.active = none) ∧
    (∀ (s : ImTui) (top : Layout) (rest : List Layout) (text : String)
        (st : Bool) (id : Id),
        s.hot = some id → s.active = none → s.key = some 10 →
        s.layouts = top :: rest →
        ∃ s', checkbox s text st id = some (false, st, s') ∧ s'.active = some id) ∧
    (∀ (s : ImTui) (top : Layout) (rest : List Layout) (text : String)
        (st : Bool) (id : Id),
        s.active = some id → s.layouts = top :: rest →
        ∃ s', checkbox s text st id = some (true, !st, s') ∧ s'.active = none) ∧
    (∀ (s : ImTui) (top : Layout) (rest : List Layout) (buf : String) (id : Id),
        s.hot = some id → s.active = none → s.key = some 10 →
        s.layouts = top :: rest →
        ∃ s', edit_field s buf id = some (buf, s') ∧ s'.active = some id) := by
  refine ⟨?_, ?_, ?_, ?_, ?_⟩
  · intro s top rest lbl id hH hA hK hL
    exact ⟨_, button_arm lbl id hA hH hK hL, rfl⟩
  · intro s top rest lbl id hA hL
    exact ⟨_, button_active lbl id hA hL, rfl⟩
  · intro s top rest text st id hH hA hK hL
    exact ⟨_, checkbox_arm text st id hA hH hK hL, rfl⟩
  · intro s top rest text st id hA hL
    exact ⟨_, checkbox_active text st id hA hL, rfl⟩
  · intro s top rest buf id hH hA hK hL
    exact ⟨_, ef_arm buf id hA hH hK hL, rfl⟩

/-- Witness for C2 at a concrete hot button with pending Enter. -/
theorem c2_witness :
    ∃ s', button { ImTui.default with
                   hot := some ⟨0⟩,
                   layouts := [Layout.new .Vert ⟨0, 0⟩ 0],
                   key := some 10 } "ok" ⟨0⟩ = some (false, s') ∧
          s'.active = some ⟨0⟩ :=
  c2_enter_arms_click_fires_next_frame.1 _ _ _ "ok" ⟨0⟩ rfl rfl rfl rfl

/-- C3: every widget call either leaves `active` unchanged, releases its
own claim (`Some(its id) → None`), or acquires the claim only when
`active` was `None` at that moment (and the widget was hot) — so at most
one widget id ever holds `active` (the field is a single `Option`), and
it is granted only after the `active.is_none()` check. -/
theorem c3_active_mutual_exclusion :
    (∀ (s : ImTui) (lbl : String) (id : Id) (c : Bool) (s' : ImTui),
        button s lbl id = some (c, s') → activeStep s s' id) ∧
    (∀ (s : ImTui) (text : String) (st : Bool) (id : Id) (c st' : Bool)
        (s' : ImTui),
        checkbox s text st id = some (c, st', s') → activeStep s s' id) ∧
    (∀ (s : ImTui) (buf : String) (id : Id) (buf' : String) (s' : ImTui),
        edit_field s buf id = some (buf', s') → activeStep s s' id) := by
  refine ⟨?_, ?_, ?_⟩
  · intro s lbl id c s' h
    cases hL : s.layouts with
    | nil => rw [button_nil lbl id hL] at h; cases h
    | cons top rest =>
        by_cases hA : s.active = some id
        · rw [button_active lbl id hA hL] at h
          injection h with h
          injection h with hc hs
          exact Or.inr (Or.inl ⟨hA, by rw [← hs]⟩)
        · by_cases harm : s.hot = some id ∧ s.active = none ∧ s.key = some 10
          · rw [button_arm lbl id harm.2.1 harm.1 harm.2.2 hL] at h
            injection h with h
            injection h with hc hs
            exact Or.inr (Or.inr ⟨harm.2.1, harm.1, by rw [← hs]⟩)
          · rw [button_quiet lbl id hA harm hL] at h
            injection h with h
            injection h with hc hs
            exact Or.inl (by rw [← hs])
  · intro s text st id c st' s' h
    cases hL : s.layouts with
    | nil => rw [checkbox_nil text st id hL] at h; cases h
    | cons top rest =>
        by_cases hA : s.active = some id
        · rw [checkbox_active text st id hA hL] at h
          injection h with h
          injection h with hc hs
          injection hs with hst hs
          exact Or.inr (Or.inl ⟨hA, by rw [← hs]⟩)
        · by_cases harm : s.hot = some id ∧ s.active = none ∧ s.key = some 10
          · rw [checkbox_arm text st id harm.2.1 harm.1 harm.2.2 hL] at h
            injection h with h
            injection h with hc hs
            injection hs with hst hs
            exact Or.inr (Or.inr ⟨harm.2.1, harm.1, by rw [← hs]⟩)
          · rw [checkbox_quiet text st id hA harm hL] at h
            injection h with h
            injection h with hc hs
            injection hs with hst hs
            exact Or.inl (by rw [← hs])
  · intro s buf id buf' s' h
    cases hL : s.layouts with
    | nil => rw [ef_nil buf id hL] at h; cases h
    | cons top rest =>
        by_cases hA : s.active = some id
        · cases hk : s.key with
          | none =>
              rw [ef_active_nokey buf id hA hk hL] at h
              injection h with h
              injection h with hb hs
              exact Or.inl (by rw [← hs])
          | some k =>
              by_cases ht : k = 27 ∨ k = 10
              · rw [ef_term buf id hA hk ht hL] at h
                injection h with h
                injection h with hb hs
                exact Or.inr (Or.inl ⟨hA, by rw [← hs]⟩)
              · by_cases hr : 32 ≤ k ∧ k ≤ 127
                · rw [ef_print buf id hA hk ht hr hL] at h
                  injection h with h
                  injection h with hb hs
                  exact Or.inl (by rw [← hs])
                · rw [ef_active_other buf id hA hk ht hr hL] at h
                  injection h with h
                  injection h with hb hs
                  exact Or.inl (by rw [← hs])
        · by_cases harm : s.hot = some id ∧ s.active = none ∧ s.key = some 10
          · rw [ef_arm buf id harm.2.1 harm.1 harm.2.2 hL] at h
            injection h with h
            injection h with hb hs
            exact Or.inr (Or.inr ⟨harm.2.1, harm.1, by rw [← hs]⟩)
          · rw [ef_quiet buf id hA harm hL] at h
            injection h with h
            injection h with hb hs
            exact Or.inl (by rw [← hs])

/-- Witness for C3 at a concrete idle button call. -/
theorem c3_witness :
    activeStep { ImTui.default with layouts := [Layout.new .Vert ⟨0, 0⟩ 0] }
      { ImTui.default with
        ids := [⟨0⟩],
        layouts := [(Layout.new .Vert ⟨0, 0⟩ 0).add_size ⟨4, 1⟩] } ⟨0⟩ :=
  c3_active_mutual_exclusion.1 _ "" ⟨0⟩ false _ rfl

/-- C4: while an edit field is active, a frame with pending key in
`32..=127` appends that character to the buffer (keeping the field
active); a frame with pending Enter (10) or Escape (27) clears `active`
without changing the buffer.  Concretely, starting from the empty buffer,
the per-frame key scripts `['h','i', Enter]` and `['h','i', Escape]` both
end with buffer `"hi"` and `active = None`. -/
theorem c4_edit_field_session :
    (∀ (s : ImTui) (top : Layout) (rest : List Layout) (buf : String)
        (id : Id) (k : Int),
        s.active = some id → s.key = some k → 32 ≤ k → k ≤ 127 →
        s.layouts = top :: rest →
        ∃ s', edit_field s buf id = some (buf.push (Char.ofNat k.toNat), s') ∧
              s'.active = some id) ∧
    (∀ (s : ImTui) (top : Layout) (rest : List Layout) (buf : String) (id : Id),
        s.active = some id → (s.key = some 10 ∨ s.key = some 27) →
        s.layouts = top :: rest →
        ∃ s', edit_field s buf id = some (buf, s') ∧ s'.active = none) ∧
    ((runEditFrames ⟨1⟩ c4State "" [104, 105, 10]).map
        (fun r => (r.1, r.2.active)) = some ("hi", none)) ∧
    ((runEditFrames ⟨1⟩ c4State "" [104, 105, 27]).map
        (fun r => (r.1, r.2.active)) = some ("hi", none)) := by
  refine ⟨?_, ?_, rfl, rfl⟩
  · intro s top rest buf id k hA hk h32 h127 hL
    have hnoterm : ¬(k = 27 ∨ k = 10) := by omega
    exact ⟨_, ef_print buf id hA hk hnoterm ⟨h32, h127⟩ hL, hA⟩
  · intro s top rest buf id hA hk hL
    rcases hk with hk | hk
    · exact ⟨_, ef_term buf id hA hk (Or.inr rfl) hL, rfl⟩
    · exact ⟨_, ef_term buf id hA hk (Or.inl rfl) hL, rfl⟩

/-- Witness for C4: one active edit-field frame appending 'h' (104). -/
theorem c4_witness :
    ∃ s', edit_field { ImTui.default with
                       active := some ⟨1⟩,
                       layouts := [Layout.new .Vert ⟨0, 0⟩ 0],
                       key := some 104 } "" ⟨1⟩
            = some ("".push (Char.ofNat 104), s') ∧ s'.active = some ⟨1⟩ :=
  c4_edit_field_session.1 _ _ _ "" ⟨1⟩ 104 rfl rfl (by decide) (by decide) rfl

/-- C9 (counterexample): a button whose id is the active one completes its
click pulse whatever the pending key is: with pending key 1000 — a code
no widget handles — the call still reports `clicked = true` and clears
`active` from `Some(0)` to `None`, so it does not leave `active`
unchanged as the claim states. -/
theorem c9_counterexample :
    (button { ImTui.default with
              active := some ⟨0⟩,
              layouts := [Layout.new .Vert ⟨0, 0⟩ 0],
              key := some 1000 } "x" ⟨0⟩).map
        (fun r => (r.1, r.2.active)) = some (true, none) ∧
    some (Id.mk 0) ≠ (none : Option Id) := by
  exact ⟨rfl, by decide⟩

/-- C9 (amended): for a pending key no widget handles, a widget call that
is not completing its own active pulse changes none of `active`, `hot`,
`focusIndex`, the caller's buffer or boolean state, and raises no error
(it still registers its id and reports its size); a widget that is
already active completes its pulse regardless of the key.  `begin` with a
non-navigation pending key raises no error, leaves `active` and
`focusIndex` unchanged, and computes exactly the state it would compute
with no pending key (`hot` is recomputed from the previous frame's ids
as always). -/
theorem c9_amended_unhandled_keys_ignored :
    (∀ (s : ImTui) (top : Layout) (rest : List Layout) (lbl : String)
        (id : Id) (k : Int),
        s.active ≠ some id → s.key = some k → k ≠ 10 → s.layouts = top :: rest →
        ∃ s', button s lbl id = some (false, s') ∧ s'.active = s.active ∧
              s'.hot = s.hot ∧ s'.focus = s.focus) ∧
    (∀ (s : ImTui) (top : Layout) (rest : List Layout) (text : String)
        (st : Bool) (id : Id) (k : Int),
        s.active ≠ some id → s.key = some k → k ≠ 10 → s.layouts = top :: rest →
        ∃ s', checkbox s text st id = some (false, st, s') ∧
              s'.active = s.active ∧ s'.hot = s.hot ∧ s'.focus = s.focus) ∧
    (∀ (s : ImTui) (top : Layout) (rest : List Layout) (buf : String)
        (id : Id) (k : Int),
        s.key = some k → k ≠ 10 → k ≠ 27 → ¬(32 ≤ k ∧ k ≤ 127) →
        s.layouts = top :: rest →
        ∃ s', edit_field s buf id = some (buf, s') ∧ s'.active = s.active ∧
              s'.hot = s.hot ∧ s'.focus = s.focus) ∧
    (∀ (s : ImTui) (pos : Point) (k : Int),
        s.key = some k → k.emod 256 ≠ 115 → k.emod 256 ≠ 119 →
        ∃ r, s.begin pos = some r ∧ r.active = s.active ∧ r.focus = s.focus ∧
             ({ s with key := none } : ImTui).begin pos = some { r with key := none }) := by
  refine ⟨?_, ?_, ?_, ?_⟩
  · intro s top rest lbl id k hA hk h10 hL
    have hK : s.key ≠ some 10 := by rw [hk]; intro hc; injection hc with hc; omega
    exact ⟨_, button_quiet lbl id hA (fun hc => hK hc.2.2) hL, rfl, rfl, rfl⟩
  · intro s top rest text st id k hA hk h10 hL
    have hK : s.key ≠ some 10 := by rw [hk]; intro hc; injection hc with hc; omega
    exact ⟨_, checkbox_quiet text st id hA (fun hc => hK hc.2.2) hL,
           rfl, rfl, rfl⟩
  · intro s top rest buf id k hk h10 h27 hnr hL
    have hK : s.key ≠ some 10 := by rw [hk]; intro hc; injection hc with hc; omega
    by_cases hA : s.active = some id
    · have hnoterm : ¬(k = 27 ∨ k = 10) := by omega
      exact ⟨_, ef_active_other buf id hA hk hnoterm hnr hL, rfl, rfl, rfl⟩
    · exact ⟨_, ef_quiet buf id hA (fun hc => hK hc.2.2) hL, rfl, rfl, rfl⟩
  · intro s pos k hk h1 h2
    have hn := navStep_not_nav hk h1 h2
    have hb := begin_eq pos hn
    have hn' : ({ s with key := none } : ImTui).navStep
        = some { s with key := none } := navStep_key_none rfl
    have hb' := begin_eq pos hn'
    exact ⟨_, hb, rfl, rfl, hb'⟩

/-- Witness for C9 (amended) at a concrete button call with key 1000
while a different widget (id 1) holds `active`. -/
theorem c9_witness :
    ∃ s', button { ImTui.default with
                   active := some ⟨1⟩,
                   layouts := [Layout.new .Vert ⟨0, 0⟩ 0],
                   key := some 1000 } "" ⟨0⟩ = some (false, s') ∧
          s'.active = ({ ImTui.default with
                         active := some ⟨1⟩,
                         layouts := [Layout.new .Vert ⟨0, 0⟩ 0],
                         key := some 1000 } : ImTui).active ∧
          s'.hot = ({ ImTui.default with
                      active := some ⟨1⟩,
                      layouts := [Layout.new .Vert ⟨0, 0⟩ 0],
                      key := some 1000 } : ImTui).hot ∧
          s'.focus = ({ ImTui.default with
                        active := some ⟨1⟩,
                        layouts := [Layout.new .Vert ⟨0, 0⟩ 0],
                        key := some 1000 } : ImTui).focus :=
  c9_amended_unhandled_keys_ignored.1 _ _ _ "" ⟨0⟩ 1000 (by decide) rfl
    (by decide) rfl

/-- C10: starting from the default state (no widget active, zero ids
rendered by the previous frame) with a pending navigation key fed via
`feed_key` — 's' (code 115) or 'w' (code 119) — `begin` panics:
`(self.focus ± 1).rem_euclid(self.ids.len() as i32)` divides by zero.
The model returns `none` exactly where the Rust code panics, so the
navigation step of `begin` is not total. -/
theorem c10_begin_panics_on_nav_with_no_ids :
    (ImTui.default.feed_key 115).begin ⟨0, 0⟩ = none ∧
    (ImTui.default.feed_key 119).begin ⟨0, 0⟩ = none := by
  constructor <;> rfl

/-- C7: whenever `begin` returns, it has recomputed `hot` as the id of the
previous frame's `ids` registry at the (navigation-updated) focus index
clamped to `[0, len-1]` — `none` when that registry was empty — and has
cleared the registry for the new frame.  The clamp keeps the lookup in
range, so a nonempty registry always yields some hot id. -/
theorem c7_begin_recomputes_hot (s : ImTui) (pos : Point) (r : ImTui)
    (h : s.begin pos = some r) :
    r.ids = [] ∧
    (s.ids = [] → r.hot = none) ∧
    (s.ids ≠ [] →
      r.hot = s.ids[(min (max r.focus 0) ((s.ids.length : Int) - 1)).toNat]? ∧
      ∃ w, r.hot = some w) := by
  unfold ImTui.begin at h
  cases hn : s.navStep with
  | none => rw [hn] at h; cases h
  | some s₁ =>
      rw [hn] at h
      have hids : s₁.ids = s.ids := by rw [navStep_shape hn]
      simp only [Option.bind_eq_bind, Option.some_bind] at h
      injection h with h
      subst h
      refine ⟨rfl, ?_, ?_⟩
      · intro he
        simp [hids, he]
      · intro hne
        have hlen : 0 < s.ids.length := List.length_pos.mpr hne
        have hcast : (1 : Int) ≤ (s.ids.length : Int) := by exact_mod_cast hlen
        have h0 : (0 : Int) ≤ min (max s₁.focus 0) ((s.ids.length : Int) - 1) :=
          le_min (le_max_right _ _) (by omega)
        have h1 : min (max s₁.focus 0) ((s.ids.length : Int) - 1)
            ≤ (s.ids.length : Int) - 1 := min_le_right _ _
        have hidx : (min (max s₁.focus 0) ((s.ids.length : Int) - 1)).toNat
            < s.ids.length := by omega
        constructor
        · simp [hids, hlen]
        · refine ⟨s.ids[(min (max s₁.focus 0)
            ((s.ids.length : Int) - 1)).toNat], ?_⟩
          simp only [hids, if_pos hlen]
          exact List.getElem?_eq_getElem hidx

theorem add_size_vert {l : Layout} (c : Point) (h : l.typ = .Vert) :
    l.add_size c = { l with size := ⟨max l.size.x c.x, l.size.y + c.y + l.pad⟩ } := by
  unfold Layout.add_size
  rw [h]

theorem add_size_horz {l : Layout} (c : Point) (h : l.typ = .Horz) :
    l.add_size c = { l with size := ⟨l.size.x + c.x + l.pad, max l.size.y c.y⟩ } := by
  unfold Layout.add_size
  rw [h]

theorem foldl_add_size_vert (cs : List Point) :
    ∀ (l : Layout), l.typ = .Vert →
      cs.foldl Layout.add_size l =
        { l with size := ⟨cs.foldl (fun a c => max a c.x) l.size.x,
                          l.size.y + (cs.map Point.y).sum
                            + (cs.length : Int) * l.pad⟩ } := by
  induction cs with
  | nil =>
      intro l h
      simp only [List.foldl_nil, List.map_nil, List.sum_nil, List.length_nil,
        Nat.cast_zero, zero_mul, add_zero]
  | cons c cs ih =>
      intro l h
      rw [List.foldl_cons, add_size_vert c h,
        ih { l with size := ⟨max l.size.x c.x, l.size.y + c.y + l.pad⟩ } h]
      simp only [Layout.mk.injEq, Point.mk.injEq, List.foldl_cons, List.map_cons,
        List.sum_cons, List.length_cons]
      simp only [true_and, and_true]
      push_cast
      ring_nf

theorem foldl_add_size_horz (cs : List Point) :
    ∀ (l : Layout), l.typ = .Horz →
      cs.foldl Layout.add_size l =
        { l with size := ⟨l.size.x + (cs.map Point.x).sum
                            + (cs.length : Int) * l.pad,
                          cs.foldl (fun a c => max a c.y) l.size.y⟩ } := by
  induction cs with
  | nil =>
      intro l h
      simp only [List.foldl_nil, List.map_nil, List.sum_nil, List.length_nil,
        Nat.cast_zero, zero_mul, add_zero]
  | cons c cs ih =>
      intro l h
      rw [List.foldl_cons, add_size_horz c h,
        ih { l with size := ⟨l.size.x + c.x + l.pad, max l.size.y c.y⟩ } h]
      simp only [Layout.mk.injEq, Point.mk.injEq, List.foldl_cons, List.map_cons,
        List.sum_cons, List.length_cons]
      simp only [true_and, and_true]
      push_cast
      ring_nf

/-- C5 (counterexample): two children of height 1 added to a vertical
layout with padding 1 put `free_pos()` at `origin + (0, 4)` — the code
adds `child_height + pad` for every child, so the claim's example value
`origin.y + 3` is wrong (shown here at origin (0,0)). -/
theorem c5_counterexample :
    (([⟨1, 1⟩, ⟨1, 1⟩] : List Point).foldl Layout.add_size
        (Layout.new .Vert ⟨0, 0⟩ 1)).free_pos = ⟨0, 4⟩ ∧
    ¬ (([⟨1, 1⟩, ⟨1, 1⟩] : List Point).foldl Layout.add_size
        (Layout.new .Vert ⟨0, 0⟩ 1)).free_pos = ⟨0, 3⟩ := by
  exact ⟨rfl, by decide⟩

/-- C5 (amended): a vertical layout with origin `o` and padding `p`, after
children `cs` have been added via `add_size`, has
`free_pos() = o + (0, Σ heights + n·p)` — so two children of height 1 with
padding 1 give `free_pos().y = o.y + 4`, one trailing pad per child, not
`o.y + 3`.  Symmetrically a horizontal frame accumulates primary size
`Σ widths + n·p` and secondary size `max` of the child heights (folded
from the initial 0). -/
theorem c5_amended_layout_accumulation :
    (∀ (o : Point) (p : Int) (cs : List Point),
        (cs.foldl Layout.add_size (Layout.new .Vert o p)).free_pos =
          ⟨o.x, o.y + (cs.map Point.y).sum + (cs.length : Int) * p⟩) ∧
    (∀ (o : Point) (p : Int) (cs : List Point),
        (cs.foldl Layout.add_size (Layout.new .Horz o p)).size =
          ⟨(cs.map Point.x).sum + (cs.length : Int) * p,
           cs.foldl (fun a c => max a c.y) 0⟩) ∧
    (∀ (o : Point),
        (([⟨1, 1⟩, ⟨1, 1⟩] : List Point).foldl Layout.add_size
            (Layout.new .Vert o 1)).free_pos = ⟨o.x, o.y + 4⟩) := by
  refine ⟨?_, ?_, ?_⟩
  · intro o p cs
    rw [foldl_add_size_vert cs (Layout.new .Vert o p) rfl]
    unfold Layout.free_pos
    simp only [Layout.new, Point.add, Point.mul, Point.mk.injEq]
    constructor <;> ring_nf
  · intro o p cs
    rw [foldl_add_size_horz cs (Layout.new .Horz o p) rfl]
    simp only [Layout.new, Point.mk.injEq]
    constructor <;> ring_nf
  · intro o
    show ((Layout.new .Vert o 1).add_size ⟨1, 1⟩ |>.add_size ⟨1, 1⟩).free_pos = _
    rw [add_size_vert _ rfl, add_size_vert _ rfl]
    unfold Layout.free_pos
    simp only [Layout.new, Point.add, Point.mul, Point.mk.injEq]
    constructor <;> ring_nf

theorem runOps_nil (s : ImTui) : runOps s [] = some s := rfl

theorem runOps_cons (s : ImTui) (op : LOp) (ops : List LOp) :
    runOps s (op :: ops) = (runOp s op).bind (fun s₁ => runOps s₁ ops) := rfl

theorem runOps_append (s : ImTui) (a b : List LOp) :
    runOps s (a ++ b) = (runOps s a).bind (fun s₁ => runOps s₁ b) := by
  induction a generalizing s with
  | nil => rfl
  | cons op a ih =>
      rw [List.cons_append, runOps_cons, runOps_cons]
      cases runOp s op with
      | none => rfl
      | some s₁ => simpa using ih s₁

theorem runOps_balanced {ops : List LOp} (hb : Balanced ops) :
    ∀ (s : ImTui) (top : Layout) (rest : List Layout), s.layouts = top :: rest →
      ∃ top', runOps s ops = some { s with layouts := top' :: rest } := by
  induction hb with
  | nil =>
      intro s top rest hL
      refine ⟨top, ?_⟩
      rw [runOps_nil, ← hL]
  | wrap t p hws ih =>
      intro s top rest hL
      rename_i ws
      obtain ⟨nt, h2⟩ := ih { s with layouts := Layout.new t top.free_pos p :: top :: rest }
        (Layout.new t top.free_pos p) (top :: rest) rfl
      refine ⟨top.add_size nt.size, ?_⟩
      rw [runOps_cons]
      have h1 : runOp s (.bl t p)
          = some { s with layouts := Layout.new t top.free_pos p :: top :: rest } := by
        show s.begin_layout t p = _
        unfold ImTui.begin_layout
        rw [hL]
      rw [h1]
      simp only [Option.some_bind]
      rw [runOps_append, h2]
      simp only [Option.some_bind]
      exact rfl
  | comp ha hb iha ihb =>
      intro s top rest hL
      obtain ⟨t1, h1⟩ := iha s top rest hL
      obtain ⟨t2, h2⟩ := ihb { s with layouts := t1 :: rest } t1 rest rfl
      refine ⟨t2, ?_⟩
      rw [runOps_append, h1]
      simp only [Option.some_bind]
      exact h2

/-- C6: `begin` pushes exactly one (root) layout frame, `begin_layout`
pushes exactly one, `end_layout` pops exactly one, `end` pops exactly
one; consequently a frame whose `begin_layout`/`end_layout` calls are
properly nested and fully closed between `begin(origin)` and `end()`
finishes with an empty layout stack. -/
theorem c6_balanced_layout_stack_empties :
    (∀ (s : ImTui) (pos : Point) (r : ImTui),
        s.begin pos = some r → r.layouts.length = s.layouts.length + 1) ∧
    (∀ (s : ImTui) (t : LayoutType) (p : Int) (r : ImTui),
        s.begin_layout t p = some r → r.layouts.length = s.layouts.length + 1) ∧
    (∀ (s r : ImTui),
        s.end_layout = some r → r.layouts.length + 1 = s.layouts.length) ∧
    (∀ (s r : ImTui),
        s.end' = some r → r.layouts.length + 1 = s.layouts.length) ∧
    (∀ (s : ImTui) (pos : Point) (ops : List LOp),
        Balanced ops → s.layouts = [] → s.key = none →
        ∃ s', layoutSession s pos ops = some s' ∧ s'.layouts = []) := by
  refine ⟨?_, ?_, ?_, ?_, ?_⟩
  · intro s pos r h
    unfold ImTui.begin at h
    cases hn : s.navStep with
    | none => rw [hn] at h; cases h
    | some s₁ =>
        rw [hn] at h
        simp only [Option.bind_eq_bind, Option.some_bind] at h
        injection h with h
        subst h
        have : s₁.layouts = s.layouts := by rw [navStep_shape hn]
        simp [this]
  · intro s t p r h
    unfold ImTui.begin_layout at h
    cases hL : s.layouts with
    | nil => rw [hL] at h; cases h
    | cons top rest =>
        rw [hL] at h
        injection h with h
        subst h
        simp [hL]
  · intro s r h
    unfold ImTui.end_layout at h
    cases hL : s.layouts with
    | nil => rw [hL] at h; cases h
    | cons top rest =>
        cases rest with
        | nil => rw [hL] at h; cases h
        | cons parent rest' =>
            rw [hL] at h
            injection h with h
            subst h
            simp [hL]
  · intro s r h
    unfold ImTui.end' at h
    cases hL : s.layouts with
    | nil => rw [hL] at h; cases h
    | cons top rest =>
        rw [hL] at h
        injection h with h
        subst h
        simp [hL]
  · intro s pos ops hb hL hK
    have hn := navStep_key_none hK
    have hbeg := begin_eq pos hn
    rw [hL] at hbeg
    obtain ⟨top', hrun⟩ := runOps_balanced hb
      { s with
        hot := if s.ids.length > 0 then
                 s.ids[(min (max s.focus 0) ((s.ids.length : Int) - 1)).toNat]?
               else none,
        layouts := [Layout.new .Vert pos 0],
        ids := ([] : List Id) }
      (Layout.new .Vert pos 0) [] rfl
    refine ⟨{ s with
              hot := if s.ids.length > 0 then
                       s.ids[(min (max s.focus 0) ((s.ids.length : Int) - 1)).toNat]?
                     else none,
              layouts := ([] : List Layout),
              key := none,
              ids := ([] : List Id) }, ?_, rfl⟩
    unfold layoutSession
    rw [hbeg]
    simp only [Option.bind_eq_bind, Option.some_bind]
    rw [hrun]
    simp only [Option.some_bind]
    exact rfl

/-- Witness for C6: the nested sequence `begin_layout Horz 1; end_layout`
inside one frame, from the default state. -/
theorem c6_witness :
    ∃ s', layoutSession ImTui.default ⟨0, 0⟩ [.bl .Horz 1, .el] = some s' ∧
          s'.layouts = [] :=
  c6_balanced_layout_stack_empties.2.2.2.2 ImTui.default ⟨0, 0⟩ [.bl .Horz 1, .el]
    (Balanced.wrap .Horz 1 Balanced.nil) rfl rfl

theorem declButtons_nil (s : ImTui) : declButtons [] s = some s := rfl

theorem declButtons_cons (s : ImTui) (id : Id) (l : List Id) :
    declButtons (id :: l) s
      = ((button s "" id).map Prod.snd).bind (fun s₁ => declButtons l s₁) := rfl

theorem declButtons_run :
    ∀ (l : List Id) (s : ImTui) (top : Layout) (rest : List Layout),
      s.active = none → s.key ≠ some 10 → s.layouts = top :: rest →
      ∃ top', declButtons l s
        = some { s with ids := s.ids ++ l, layouts := top' :: rest } := by
  intro l
  induction l with
  | nil =>
      intro s top rest hA hK hL
      refine ⟨top, ?_⟩
      rw [declButtons_nil, ← hL]
      simp
  | cons id l ih =>
      intro s top rest hA hK hL
      obtain ⟨top', h2⟩ := ih
        { s with
          ids := s.ids ++ [id],
          layouts := top.add_size ⟨(("[ " ++ "" ++ " ]").length : Int), 1⟩ :: rest }
        (top.add_size ⟨(("[ " ++ "" ++ " ]").length : Int), 1⟩) rest hA hK rfl
      refine ⟨top', ?_⟩
      rw [declButtons_cons, button_no_enter "" id hA hK hL]
      simp only [Option.map_some', Option.some_bind]
      rw [h2]
      simp

theorem declButtons_end (l : List Id) (t : ImTui) (top : Layout)
    (hA : t.active = none) (hK : t.key ≠ some 10) (hL : t.layouts = [top]) :
    (declButtons l t).bind (fun s => s.end')
      = some { t with
               ids := t.ids ++ l,
               layouts := ([] : List Layout),
               key := none } := by
  obtain ⟨top', hd⟩ := declButtons_run l t top [] hA hK hL
  rw [hd]
  simp only [Option.some_bind]
  exact rfl

theorem navFrame_s (l : List Id) (h : Option Id) (f : Int) (hne : l ≠ []) :
    ∃ h', navFrame l 115 (navState l h f)
      = some (navState l h' ((f + 1).emod (l.length : Int))) := by
  have hnav : ((navState l h f).feed_key 115).navStep
      = some { (navState l h f).feed_key 115 with
               focus := (f + 1).emod (l.length : Int) } :=
    navStep_nav_s rfl rfl hne
  have hb := begin_eq (⟨0, 0⟩ : Point) hnav
  refine ⟨if l.length > 0 then
            l[(min (max ((f + 1).emod (l.length : Int)) 0)
                ((l.length : Int) - 1)).toNat]?
          else none, ?_⟩
  show (((navState l h f).feed_key 115).begin ⟨0, 0⟩).bind
      (fun s => (declButtons l s).bind (fun s => s.end')) = _
  rw [hb]
  simp only [Option.bind_eq_bind, Option.some_bind]
  show (declButtons l
      { active := none,
        hot := if l.length > 0 then
                 l[(min (max ((f + 1).emod (l.length : Int)) 0)
                     ((l.length : Int) - 1)).toNat]?
               else none,
        layouts := [Layout.new .Vert ⟨0, 0⟩ 0],
        key := some 115,
        ids := ([] : List Id),
        focus := (f + 1).emod (l.length : Int) }).bind (fun s => s.end') = _
  rw [declButtons_end l
      { active := none,
        hot := if l.length > 0 then
                 l[(min (max ((f + 1).emod (l.length : Int)) 0)
                     ((l.length : Int) - 1)).toNat]?
               else none,
        layouts := [Layout.new .Vert ⟨0, 0⟩ 0],
        key := some 115,
        ids := ([] : List Id),
        focus := (f + 1).emod (l.length : Int) }
      (Layout.new .Vert ⟨0, 0⟩ 0) rfl
      (fun hc => absurd (Option.some.inj hc) (by decide)) rfl]
  exact rfl

theorem navFrame_w (l : List Id) (h : Option Id) (f : Int) (hne : l ≠ []) :
    ∃ h', navFrame l 119 (navState l h f)
      = some (navState l h' ((f - 1).emod (l.length : Int))) := by
  have hnav : ((navState l h f).feed_key 119).navStep
      = some { (navState l h f).feed_key 119 with
               focus := (f - 1).emod (l.length : Int) } :=
    navStep_nav_w rfl rfl hne
  have hb := begin_eq (⟨0, 0⟩ : Point) hnav
  refine ⟨if l.length > 0 then
            l[(min (max ((f - 1).emod (l.length : Int)) 0)
                ((l.length : Int) - 1)).toNat]?
          else none, ?_⟩
  show (((navState l h f).feed_key 119).begin ⟨0, 0⟩).bind
      (fun s => (declButtons l s).bind (fun s => s.end')) = _
  rw [hb]
  simp only [Option.bind_eq_bind, Option.some_bind]
  show (declButtons l
      { active := none,
        hot := if l.length > 0 then
                 l[(min (max ((f - 1).emod (l.length : Int)) 0)
                     ((l.length : Int) - 1)).toNat]?
               else none,
        layouts := [Layout.new .Vert ⟨0, 0⟩ 0],
        key := some 119,
        ids := ([] : List Id),
        focus := (f - 1).emod (l.length : Int) }).bind (fun s => s.end') = _
  rw [declButtons_end l
      { active := none,
        hot := if l.length > 0 then
                 l[(min (max ((f - 1).emod (l.length : Int)) 0)
                     ((l.length : Int) - 1)).toNat]?
               else none,
        layouts := [Layout.new .Vert ⟨0, 0⟩ 0],
        key := some 119,
        ids := ([] : List Id),
        focus := (f - 1).emod (l.length : Int) }
      (Layout.new .Vert ⟨0, 0⟩ 0) rfl
      (fun hc => absurd (Option.some.inj hc) (by decide)) rfl]
  exact rfl

theorem runNavFrames_nil (l : List Id) (s : ImTui) :
    runNavFrames l s [] = some s := rfl

theorem runNavFrames_cons (l : List Id) (s : ImTui) (k : Int) (ks : List Int) :
    runNavFrames l s (k :: ks)
      = (navFrame l k s).bind (fun s' => runNavFrames l s' ks) := rfl

theorem runNavFrames_append (l : List Id) (s : ImTui) (a b : List Int) :
    runNavFrames l s (a ++ b)
      = (runNavFrames l s a).bind (fun s' => runNavFrames l s' b) := by
  induction a generalizing s with
  | nil => rfl
  | cons k a ih =>
      rw [List.cons_append, runNavFrames_cons, runNavFrames_cons]
      cases navFrame l k s with
      | none => rfl
      | some s₁ => simpa using ih s₁

theorem emod_add_right (x b n : Int) : (x.emod n + b).emod n = (x + b).emod n := by
  show (x % n + b) % n = (x + b) % n
  conv_lhs => rw [Int.add_emod, Int.emod_emod_of_dvd _ dvd_rfl]
  rw [← Int.add_emod]

theorem emod_sub_right (x b n : Int) : (x.emod n - b).emod n = (x - b).emod n := by
  show (x % n - b) % n = (x - b) % n
  conv_lhs => rw [Int.sub_emod, Int.emod_emod_of_dvd _ dvd_rfl]
  rw [← Int.sub_emod]

theorem runNav_phase_s (l : List Id) (hne : l ≠ []) :
    ∀ (n : Nat) (h : Option Id) (f : Int),
      ∃ h' f', runNavFrames l (navState l h f) (List.replicate n 115)
          = some (navState l h' f') ∧
        f'.emod (l.length : Int) = (f + n).emod (l.length : Int) := by
  intro n
  induction n with
  | zero =>
      intro h f
      exact ⟨h, f, rfl, by simp⟩
  | succ n ih =>
      intro h f
      obtain ⟨h1, hstep⟩ := navFrame_s l h f hne
      obtain ⟨h', f', hrun, hmod⟩ := ih h1 ((f + 1).emod (l.length : Int))
      refine ⟨h', f', ?_, ?_⟩
      · rw [List.replicate_succ, runNavFrames_cons, hstep]
        simpa using hrun
      · rw [hmod, emod_add_right]
        congr 1
        push_cast
        ring

theorem runNav_phase_w (l : List Id) (hne : l ≠ []) :
    ∀ (n : Nat) (h : Option Id) (f : Int),
      ∃ h' f', runNavFrames l (navState l h f) (List.replicate n 119)
          = some (navState l h' f') ∧
        f'.emod (l.length : Int) = (f - n).emod (l.length : Int) := by
  intro n
  induction n with
  | zero =>
      intro h f
      exact ⟨h, f, rfl, by simp⟩
  | succ n ih =>
      intro h f
      obtain ⟨h1, hstep⟩ := navFrame_w l h f hne
      obtain ⟨h', f', hrun, hmod⟩ := ih h1 ((f - 1).emod (l.length : Int))
      refine ⟨h', f', ?_, ?_⟩
      · rw [List.replicate_succ, runNavFrames_cons, hstep]
        simpa using hrun
      · rw [hmod, emod_sub_right]
        congr 1
        push_cast
        ring

/-- C8: with a fixed nonempty list of rendered widget ids, nothing active
and no other activity, n frames of the "next" navigation key ('s', 115)
followed by n frames of the "previous" key ('w', 119) return `focus` to
its original value modulo the count of rendered ids. -/
theorem c8_nav_roundtrip (l : List Id) (h : Option Id) (f : Int) (n : Nat)
    (hne : l ≠ []) :
    ∃ s', runNavFrames l (navState l h f)
        (List.replicate n 115 ++ List.replicate n 119) = some s' ∧
      s'.focus.emod (l.length : Int) = f.emod (l.length : Int) ∧
      s'.ids = l ∧ s'.active = none := by
  obtain ⟨h1, f1, h115, hm1⟩ := runNav_phase_s l hne n h f
  obtain ⟨h2, f2, h119, hm2⟩ := runNav_phase_w l hne n h1 f1
  refine ⟨navState l h2 f2, ?_, ?_, rfl, rfl⟩
  · rw [runNavFrames_append, h115]
    simpa using h119
  · show f2.emod (l.length : Int) = f.emod (l.length : Int)
    rw [hm2, ← emod_sub_right, hm1, emod_sub_right]
    congr 1
    ring

/-- Witness for C8: one id, focus 0, two nexts then two previouses. -/
theorem c8_witness :
    ∃ s', runNavFrames [⟨0⟩] (navState [⟨0⟩] none 0)
        (List.replicate 2 115 ++ List.replicate 2 119) = some s' ∧
      s'.focus.emod (([(⟨0⟩ : Id)] : List Id).length : Int)
        = (0 : Int).emod (([(⟨0⟩ : Id)] : List Id).length : Int) ∧
      s'.ids = [⟨0⟩] ∧ s'.active = none :=
  c8_nav_roundtrip [⟨0⟩] none 0 2 (by decide)

/-- Witness for C7: `begin` on a state whose previous frame rendered one
id, with the focus index out of range (5), clamps to the last valid index
and makes that id hot. -/
theorem c7_begin_recomputes_hot_witness :
    ∃ r, ImTui.begin { ImTui.default with ids := [⟨3⟩], focus := 5 } ⟨0, 0⟩
        = some r ∧ r.ids = [] ∧ (∃ w, r.hot = some w) := by
  refine ⟨_, rfl, ?_, ?_⟩
  · exact (c7_begin_recomputes_hot { ImTui.default with ids := [⟨3⟩], focus := 5 }
      ⟨0, 0⟩ _ rfl).1
  · exact ((c7_begin_recomputes_hot { ImTui.default with ids := [⟨3⟩], focus := 5 }
      ⟨0, 0⟩ _ rfl).2.2 (by decide)).2

end Imtui
